/-
Verification of the preference-pair construction and rebalancing engine:
pairwise expansion (convert_to_dpo.py), ratio rebalancing
(tools/downsample_scores.py), score canonicalization (tools/flip_scores.py),
noise injection and SFT projection (tools/flip_and_convert_to_sft.py,
tools/dpo_to_sft.py).  Scores and ratios are modelled as rationals; JSON
dictionaries become structures with `Option` fields for possibly-absent keys;
a missing-key access is modelled as `Except.error` carrying the key name;
`random.shuffle` becomes an explicit function parameter that is assumed (in
the theorems that need it) to permute its argument.
-/
import Mathlib

/-- One candidate response inside an input comparison record:
a dict with keys `response`, `score`, `source`. -/
structure Candidate where
  response : String
  score : ℚ
  source : String
deriving DecidableEq, Inhabited, Repr

/-- One input record of `convert_to_dpo_format`: a dict that may or may not
carry the keys `user_input` and `responses_and_scores`. -/
structure InputEntry where
  user_input : Option String
  responses_and_scores : Option (List Candidate)
deriving DecidableEq, Inhabited, Repr

/-- A turn or sub-record dict with possibly-absent `from` and `value` keys. -/
structure Message where
  from_ : Option String
  value : Option String
deriving DecidableEq, Inhabited, Repr

/-- One DPO entry produced by the pairwise expansion in
`convert_to_dpo_format` (all keys are always written by the code). -/
structure DpoEntry where
  conversation : List Message
  chosen : Message
  rejected : Message
  chosen_score : ℚ
  rejected_score : ℚ
  chosen_source : String
  rejected_source : String
deriving DecidableEq, Inhabited, Repr

/-- Build the dict literal appended to `dpo_data` in `convert_to_dpo_format`
once `chosen` and `rejected` have been determined. -/
def mkDpoEntry (user_input : String) (chosen rejected : Candidate) : DpoEntry :=
  { conversation := [{ from_ := some "human", value := some user_input }]
    chosen := { from_ := some "gpt", value := some chosen.response }
    rejected := { from_ := some "gpt", value := some rejected.response }
    chosen_score := chosen.score
    rejected_score := rejected.score
    chosen_source := chosen.source
    rejected_source := rejected.source }

/-- The body of the inner loop of `convert_to_dpo_format` for one index pair:
the higher-scored response becomes `chosen`, the lower `rejected`, and a tie
is skipped (`none`). -/
def comparePair (user_input : String) (response_1 response_2 : Candidate) :
    Option DpoEntry :=
  if response_1.score > response_2.score then
    some (mkDpoEntry user_input response_1 response_2)
  else if response_2.score > response_1.score then
    some (mkDpoEntry user_input response_2 response_1)
  else
    none

/-- The two nested index loops of `convert_to_dpo_format`
(`for i in range(n): for j in range(i+1, n): ...`). -/
def convert_to_dpo_pairs (user_input : String) (responses_and_scores : List Candidate) :
    List DpoEntry :=
  (List.range responses_and_scores.length).flatMap fun i =>
    ((List.range responses_and_scores.length).filter fun j => i < j).filterMap fun j =>
      comparePair user_input (responses_and_scores.getD i default)
        (responses_and_scores.getD j default)

/-- Dict key access `entry[key]`: raises `KeyError` when the key is absent. -/
def dictGet (v : Option α) (key : String) : Except String α :=
  match v with
  | some x => Except.ok x
  | none => Except.error key

/-- Processing of one entry in `convert_to_dpo_format`: the accesses
`entry['user_input']` and `entry['responses_and_scores']` followed by the
pairwise expansion. -/
def convert_entry (entry : InputEntry) : Except String (List DpoEntry) := do
  let user_input ← dictGet entry.user_input "user_input"
  let responses_and_scores ← dictGet entry.responses_and_scores "responses_and_scores"
  return convert_to_dpo_pairs user_input responses_and_scores

/-- Number of tied combinations: index pairs `i < j` whose two scores are
equal (exactly the pairs the expansion skips). -/
def tiedCount (responses_and_scores : List Candidate) : ℕ :=
  ((List.range responses_and_scores.length).flatMap fun i =>
    ((List.range responses_and_scores.length).filter fun j => i < j).filter fun j =>
      (responses_and_scores.getD i default).score =
        (responses_and_scores.getD j default).score).length

/-- One item of the DPO-format datasets handled by the tools
(`downsample_scores.py`, `flip_scores.py`, `flip_and_convert_to_sft.py`,
`dpo_to_sft.py`): a dict whose keys may all be absent. -/
structure DataPoint where
  conversations : Option (List Message)
  chosen : Option Message
  rejected : Option Message
  chosen_score : Option ℚ
  rejected_score : Option ℚ
  chosen_source : Option String
  rejected_source : Option String
deriving DecidableEq, Inhabited, Repr

/-- The classification predicate of `downsample_dataset`: an item lacking
either score key goes to the `greater_equal` class; otherwise the comparison
`chosen_score < rejected_score` decides. -/
def scoreLess (item : DataPoint) : Bool :=
  match item.chosen_score, item.rejected_score with
  | some chosen_score, some rejected_score => chosen_score < rejected_score
  | _, _ => false

/-- The `less_than` class built by `downsample_dataset`. -/
def less_than (data : List DataPoint) : List DataPoint :=
  data.filter scoreLess

/-- The `greater_equal` class built by `downsample_dataset`. -/
def greater_equal (data : List DataPoint) : List DataPoint :=
  data.filter fun item => !scoreLess item

/-- The sample-count computation of `downsample_dataset` (the
`required_less` / `required_greater_equal` arithmetic, `int()` truncation
rendered as `Nat.floor`, followed by the two `min` clamps). -/
def requiredCounts (total_less total_greater_equal : ℕ) (r : ℚ) : ℕ × ℕ :=
  let required_less := ⌊r * total_greater_equal / (1 - r)⌋₊
  let counts :=
    if required_less > total_less then
      (total_less, ⌊(total_less : ℚ) * (1 - r) / r⌋₊)
    else
      (required_less, total_greater_equal)
  (min counts.1 total_less, min counts.2 total_greater_equal)

/-- `downsample_dataset`: classify, early-return when the `less_than` class
is empty or the target is extreme, otherwise sample clamped counts from each
shuffled class and shuffle the concatenation.  The three `random.shuffle`
calls are modelled by the explicit function parameters `sh1`, `sh2`, `sh3`. -/
def downsample_dataset (sh1 sh2 sh3 : List DataPoint → List DataPoint)
    (data : List DataPoint) (r : ℚ) : List DataPoint :=
  if (less_than data).length = 0 then data
  else if 1 ≤ r then less_than data
  else if r ≤ 0 then greater_equal data
  else
    sh3 (((sh1 (less_than data)).take
            (requiredCounts (less_than data).length (greater_equal data).length r).1) ++
         ((sh2 (greater_equal data)).take
            (requiredCounts (less_than data).length (greater_equal data).length r).2))

/-- `flip_data_point` from `flip_scores.py`: when both score keys are present
and `chosen_score < rejected_score`, swap the two scores and, when both the
`chosen` and `rejected` keys are present, also swap those two values. -/
def flip_data_point (data_point : DataPoint) : DataPoint :=
  match data_point.chosen_score, data_point.rejected_score with
  | some chosen_score, some rejected_score =>
    if chosen_score < rejected_score then
      let dp1 := { data_point with chosen_score := some rejected_score,
                                   rejected_score := some chosen_score }
      match dp1.chosen, dp1.rejected with
      | some c, some r => { dp1 with chosen := some r, rejected := some c }
      | _, _ => dp1
    else data_point
  | _, _ => data_point

/-- The per-item step of the loop in `process_json_file` of `flip_scores.py`:
call `flip_data_point` exactly when both scores are present and
`chosen_score < rejected_score`. -/
def flip_if_needed (data_point : DataPoint) : DataPoint :=
  match data_point.chosen_score, data_point.rejected_score with
  | some original_chosen_score, some original_rejected_score =>
    if original_chosen_score < original_rejected_score then flip_data_point data_point
    else data_point
  | _, _ => data_point

/-- The whole enforce pass of `process_json_file` in `flip_scores.py`. -/
def flip_all (data : List DataPoint) : List DataPoint :=
  data.map flip_if_needed

/-- The swap of `flip_chosen_rejected` in `flip_and_convert_to_sft.py`:
`new_item['chosen'], new_item['rejected'] = item['rejected'], item['chosen']`
(a missing key raises `KeyError`). -/
def flip_item_fields (item : DataPoint) : Except String DataPoint := do
  let r ← dictGet item.rejected "rejected"
  let c ← dictGet item.chosen "chosen"
  return { item with chosen := some r, rejected := some c }

/-- One iteration of the loop in `flip_chosen_rejected`: the Bernoulli draw
`random.random() < flip_ratio` is modelled by the boolean `flip`. -/
def flip_step (flip : Bool) (item : DataPoint) : Except String DataPoint :=
  if flip then flip_item_fields item else Except.ok item

/-- `flip_chosen_rejected` over a whole dataset, the per-item random draws
modelled by the function `flips` from item index to decision. -/
def flip_chosen_rejected (flips : ℕ → Bool) (data : List DataPoint) :
    Except String (List DataPoint) :=
  (List.range data.length).mapM fun i => flip_step (flips i) (data.getD i default)

/-- An SFT record `{instruction, input, output}`. -/
structure SftEntry where
  instruction : String
  input : String
  output : String
deriving DecidableEq, Inhabited, Repr

/-- The per-item body of `convert_to_sft` in `flip_and_convert_to_sft.py`:
instruction is the first turn with `from == 'human'` (else the empty string),
output is `chosen['value']` (else the empty string); one record is always
produced. -/
def convert_to_sft_item (item : DataPoint) : SftEntry :=
  { instruction :=
      match item.conversations with
      | some convs =>
        match convs.find? fun conv => conv.from_ = some "human" with
        | some conv => conv.value.getD ""
        | none => ""
      | none => ""
    input := ""
    output :=
      match item.chosen with
      | some chosen => chosen.value.getD ""
      | none => "" }

/-- `convert_to_sft` from `flip_and_convert_to_sft.py`. -/
def convert_to_sft (data : List DataPoint) : List SftEntry :=
  data.map convert_to_sft_item

/-- The per-item body of `convert_dpo_to_sft` in `dpo_to_sft.py`: skip the
item exactly when `item.get('conversations', [])` is empty, otherwise take
the first turn's value as instruction and `chosen.get('value','')` as
output (`chosen` absent yields the empty string). -/
def convert_dpo_to_sft_item (item : DataPoint) : Option SftEntry :=
  match item.conversations.getD [] with
  | [] => none
  | conv0 :: _ =>
    some { instruction := conv0.value.getD ""
           input := ""
           output :=
             match item.chosen with
             | some chosen => chosen.value.getD ""
             | none => "" }

/-- `convert_dpo_to_sft` from `dpo_to_sft.py`. -/
def convert_dpo_to_sft (data : List DataPoint) : List SftEntry :=
  data.filterMap convert_dpo_to_sft_item

/-- Test fixture: candidate with score 3. -/
def candA : Candidate := { response := "A", score := 3, source := "s1" }

/-- Test fixture: candidate with score 5. -/
def candB : Candidate := { response := "B", score := 5, source := "s2" }

/-- Test fixture: a chosen message. -/
def msgX : Message := { from_ := some "gpt", value := some "x" }

/-- Test fixture: a rejected message. -/
def msgY : Message := { from_ := some "gpt", value := some "y" }

/-- Test fixture: an item with `chosen_score < rejected_score` and distinct
source tags. -/
def dpLT : DataPoint :=
  { conversations := none, chosen := some msgX, rejected := some msgY
    chosen_score := some 1, rejected_score := some 2
    chosen_source := some "a", rejected_source := some "b" }

/-- Test fixture: an item with `chosen_score >= rejected_score`. -/
def dpGE : DataPoint :=
  { conversations := none, chosen := some msgX, rejected := some msgY
    chosen_score := some 5, rejected_score := some 3
    chosen_source := some "a", rejected_source := some "b" }

/-- Test fixture: an item lacking both score keys. -/
def dpNS : DataPoint :=
  { conversations := none, chosen := some msgX, rejected := some msgY
    chosen_score := none, rejected_score := none
    chosen_source := none, rejected_source := none }

/-- Test fixture: an item whose conversation has no human turn. -/
def dpNoHuman : DataPoint :=
  { conversations := some [{ from_ := some "gpt", value := some "hi" }]
    chosen := some { from_ := some "gpt", value := some "out" }
    rejected := some msgY
    chosen_score := some 5, rejected_score := some 3
    chosen_source := none, rejected_source := none }

/-- Test fixture: an item with a human turn but no `chosen` key. -/
def dpNoChosen : DataPoint :=
  { conversations := some [{ from_ := some "human", value := some "q" }]
    chosen := none, rejected := some msgY
    chosen_score := some 5, rejected_score := some 3
    chosen_source := none, rejected_source := none }

theorem length_filterMap_add_filter (f : α → Option β) (l : List α) :
    (l.filterMap f).length + (l.filter fun x => (f x).isNone).length = l.length := by
  induction l with
  | nil => rfl
  | cons a l ih =>
    cases h : f a <;>
      simp only [List.filterMap_cons, h, List.filter_cons, Option.isNone_none,
        Option.isNone_some, List.length_cons] <;>
      simp <;> omega

theorem sum_map_range (f : ℕ → ℕ) (n : ℕ) :
    ((List.range n).map f).sum = ∑ i ∈ Finset.range n, f i := by
  induction n with
  | zero => simp
  | succ n ih =>
    rw [List.range_succ, List.map_append, List.sum_append, Finset.sum_range_succ, ih]
    simp

theorem range_filter_lt_sum (n : ℕ) :
    (∑ i ∈ Finset.range n, ((List.range n).filter fun j => decide (i < j)).length)
      = n.choose 2 := by
  induction n with
  | zero => simp
  | succ n ih =>
    rw [Finset.sum_range_succ]
    have h1 : ∀ i ∈ Finset.range n,
        ((List.range (n + 1)).filter fun j => decide (i < j)).length
          = ((List.range n).filter fun j => decide (i < j)).length + 1 := by
      intro i hi
      rw [List.range_succ, List.filter_append]
      simp [Finset.mem_range.mp hi]
    have h2 : ((List.range (n + 1)).filter fun j => decide (n < j)).length = 0 := by
      rw [List.length_eq_zero, List.filter_eq_nil_iff]
      intro j hj
      simp only [List.mem_range] at hj
      simp
      omega
    rw [Finset.sum_congr rfl h1, h2, Finset.sum_add_distrib, Finset.sum_const, ih]
    have h3 : (n + 1).choose 2 = n.choose 1 + n.choose 2 := Nat.choose_succ_succ n 1
    rw [h3, Nat.choose_one_right]
    simp only [Finset.card_range, smul_eq_mul]
    omega

theorem comparePair_isNone (ui : String) (a b : Candidate) :
    (comparePair ui a b).isNone = decide (a.score = b.score) := by
  unfold comparePair
  split_ifs with h1 h2
  · simp [h1.ne']
  · simp [h2.ne]
  · simp only [gt_iff_lt, not_lt] at h1 h2
    have h : a.score = b.score := le_antisymm h1 h2
    simp [h]

theorem convert_pairs_length_add_tied (ui : String) (rs : List Candidate) :
    (convert_to_dpo_pairs ui rs).length + tiedCount rs = rs.length.choose 2 := by
  unfold convert_to_dpo_pairs tiedCount
  rw [List.length_flatMap, List.length_flatMap, sum_map_range, sum_map_range,
    ← Finset.sum_add_distrib]
  rw [← range_filter_lt_sum rs.length]
  refine Finset.sum_congr rfl fun i _ => ?_
  simp only [Function.comp]
  have hcongr :
      (((List.range rs.length).filter fun j => decide (i < j)).filter fun j =>
          decide ((rs.getD i default).score = (rs.getD j default).score))
        = ((List.range rs.length).filter fun j => decide (i < j)).filter fun j =>
            (comparePair ui (rs.getD i default) (rs.getD j default)).isNone :=
    List.filter_congr fun j _ =>
      (comparePair_isNone ui (rs.getD i default) (rs.getD j default)).symm
  rw [hcongr]
  exact length_filterMap_add_filter _ _

/-- C1: the pairwise expansion considers all C(n,2) unordered index pairs,
emits one entry per pair with differing scores and drops the tied pairs, so
with k tied combinations it produces exactly C(n,2) - k entries (and exactly
C(n,2) when no scores tie). -/
theorem expander_pair_count (ui : String) (rs : List Candidate) :
    tiedCount rs ≤ rs.length.choose 2 ∧
    (convert_to_dpo_pairs ui rs).length = rs.length.choose 2 - tiedCount rs := by
  have h := convert_pairs_length_add_tied ui rs
  omega

/-- C6: every entry emitted by the pairwise expansion has a strictly higher
chosen score than rejected score; ties never appear in the output. -/
theorem expander_strict_order (ui : String) (rs : List Candidate) (e : DpoEntry)
    (he : e ∈ convert_to_dpo_pairs ui rs) :
    e.chosen_score > e.rejected_score := by
  unfold convert_to_dpo_pairs at he
  rw [List.mem_flatMap] at he
  obtain ⟨i, -, hi⟩ := he
  rw [List.mem_filterMap] at hi
  obtain ⟨j, -, hj⟩ := hi
  unfold comparePair at hj
  split_ifs at hj with h1 h2
  · cases hj
    simpa [mkDpoEntry] using h1
  · cases hj
    simpa [mkDpoEntry] using h2

theorem expander_strict_order_witness :
    (mkDpoEntry "P" candB candA).chosen_score > (mkDpoEntry "P" candB candA).rejected_score :=
  expander_strict_order "P" [candA, candB] (mkDpoEntry "P" candB candA) (by decide)

/-- C8 counterexample: a record whose `responses_and_scores` key is absent
does not yield zero pairs — the access raises a `KeyError`. -/
theorem expander_absent_key_raises :
    convert_entry { user_input := some "P", responses_and_scores := none }
      = Except.error "responses_and_scores" := rfl

/-- C8 amended: a record whose `candidates` list is present but empty, or of
length less than 2, yields zero pairs without an error; a record whose
`candidates` key is absent raises a `KeyError` instead. -/
theorem expander_degenerate (entry : InputEntry) (ui : String) (rs : List Candidate)
    (hu : entry.user_input = some ui) (hr : entry.responses_and_scores = some rs)
    (hlen : rs.length < 2) :
    convert_entry entry = Except.ok [] := by
  have hpairs : convert_to_dpo_pairs ui rs = [] := by
    match rs, hlen with
    | [], _ => rfl
    | [c], _ => rfl
  have hok : convert_entry entry = Except.ok (convert_to_dpo_pairs ui rs) := by
    unfold convert_entry
    rw [hu, hr]
    rfl
  rw [hok, hpairs]

theorem expander_degenerate_witness :
    convert_entry { user_input := some "P", responses_and_scores := some [candA] }
      = Except.ok [] :=
  expander_degenerate _ "P" [candA] rfl rfl (by decide)

/-- C2 counterexample: with an empty true class (`chosen_score <
rejected_score` never holds) and target ratio 1, the rebalancer returns the
whole input rather than the empty true class. -/
theorem downsample_empty_true_class :
    less_than [dpGE] = [] ∧
    downsample_dataset id id id [dpGE] 1 = [dpGE] := by
  constructor <;> decide

/-- C2 amended: when the true class is non-empty, target ratio 0 returns
exactly the false class and target ratio 1 exactly the true class; when the
true class is empty the rebalancer returns the entire input unchanged, for
every target ratio. -/
theorem downsample_extreme_ratios (sh1 sh2 sh3 : List DataPoint → List DataPoint)
    (data : List DataPoint) (r : ℚ) :
    (less_than data ≠ [] → downsample_dataset sh1 sh2 sh3 data 0 = greater_equal data) ∧
    (less_than data ≠ [] → downsample_dataset sh1 sh2 sh3 data 1 = less_than data) ∧
    (less_than data = [] → downsample_dataset sh1 sh2 sh3 data r = data) := by
  refine ⟨fun h => ?_, fun h => ?_, fun h => ?_⟩
  · rw [downsample_dataset, if_neg (by simpa [List.length_eq_zero] using h),
      if_neg (by norm_num), if_pos le_rfl]
  · rw [downsample_dataset, if_neg (by simpa [List.length_eq_zero] using h),
      if_pos le_rfl]
  · rw [downsample_dataset, if_pos (by simpa [List.length_eq_zero] using h)]

theorem downsample_extreme_ratios_witness :
    downsample_dataset id id id [dpLT] 0 = greater_equal [dpLT] ∧
    downsample_dataset id id id [dpLT] 1 = less_than [dpLT] ∧
    downsample_dataset id id id [dpGE] 5 = [dpGE] :=
  ⟨(downsample_extreme_ratios id id id [dpLT] 5).1 (by decide),
   (downsample_extreme_ratios id id id [dpLT] 5).2.1 (by decide),
   (downsample_extreme_ratios id id id [dpGE] 5).2.2 (by decide)⟩

/-- C9: an item lacking both score keys is classified into the false
(`greater_equal`) class, never dropped for missing data: it is not in the
true class and, in the branches that fully retain the false class (such as
target ratio 0), it appears in the output. -/
theorem downsample_keeps_unscored (sh1 sh2 sh3 : List DataPoint → List DataPoint)
    (data : List DataPoint) (item : DataPoint)
    (hmem : item ∈ data) (hc : item.chosen_score = none)
    (hr : item.rejected_score = none) :
    scoreLess item = false ∧ item ∈ greater_equal data ∧
    item ∈ downsample_dataset sh1 sh2 sh3 data 0 := by
  have hsl : scoreLess item = false := by
    unfold scoreLess
    rw [hc]
  refine ⟨hsl, List.mem_filter.mpr ⟨hmem, by simp [hsl]⟩, ?_⟩
  rw [downsample_dataset]
  by_cases h0 : (less_than data).length = 0
  · rw [if_pos h0]
    exact hmem
  · rw [if_neg h0, if_neg (by norm_num), if_pos le_rfl]
    exact List.mem_filter.mpr ⟨hmem, by simp [hsl]⟩

theorem downsample_keeps_unscored_witness :
    scoreLess dpNS = false ∧ dpNS ∈ greater_equal [dpNS] ∧
    dpNS ∈ downsample_dataset id id id [dpNS] 0 :=
  downsample_keeps_unscored id id id [dpNS] dpNS (by decide) rfl rfl

/-- C4 counterexample: on an item needing a flip (scores 1 < 2) with source
tags "a" and "b", the canonicalizer swaps the scores but leaves both source
fields unswapped, so the sub-records are not exchanged in full. -/
theorem flip_sources_not_swapped :
    (flip_data_point dpLT).chosen_score = some 2 ∧
    (flip_data_point dpLT).rejected_score = some 1 ∧
    (flip_data_point dpLT).chosen = some msgY ∧
    (flip_data_point dpLT).rejected = some msgX ∧
    (flip_data_point dpLT).chosen_source = some "a" ∧
    (flip_data_point dpLT).rejected_source = some "b" := by
  decide

/-- C4 amended: in enforce mode, a pair with both texts and both scores
present and `chosen_score < rejected_score` gets its two texts and its two
scores swapped, while `chosen_source` and `rejected_source` stay unchanged;
a pair already satisfying `rejected_score <= chosen_score` is untouched. -/
theorem flip_enforce_swap (dp : DataPoint) (cs rs : ℚ) (c r : Message)
    (hcs : dp.chosen_score = some cs) (hrs : dp.rejected_score = some rs)
    (hc : dp.chosen = some c) (hr : dp.rejected = some r) :
    (cs < rs → flip_data_point dp =
      { dp with chosen := some r, rejected := some c,
                chosen_score := some rs, rejected_score := some cs }) ∧
    (rs ≤ cs → flip_data_point dp = dp) := by
  constructor
  · intro hlt
    unfold flip_data_point
    rw [hcs, hrs]
    simp only [if_pos hlt, hc, hr]
  · intro hle
    unfold flip_data_point
    rw [hcs, hrs]
    simp only [if_neg (not_lt.mpr hle)]

theorem flip_enforce_swap_witness :
    flip_data_point dpLT =
      { dpLT with chosen := some msgY, rejected := some msgX,
                  chosen_score := some 2, rejected_score := some 1 } ∧
    flip_data_point dpGE = dpGE :=
  ⟨(flip_enforce_swap dpLT 1 2 msgX msgY rfl rfl rfl rfl).1 (by decide),
   (flip_enforce_swap dpGE 5 3 msgX msgY rfl rfl rfl rfl).2 (by decide)⟩

theorem flip_data_point_scores (dp : DataPoint) (cs rs : ℚ)
    (hcs : dp.chosen_score = some cs) (hrs : dp.rejected_score = some rs)
    (hlt : cs < rs) :
    (flip_data_point dp).chosen_score = some rs ∧
    (flip_data_point dp).rejected_score = some cs := by
  unfold flip_data_point
  rw [hcs, hrs]
  simp only [if_pos hlt]
  cases dp.chosen <;> cases dp.rejected <;> simp

theorem flip_if_needed_none (dp : DataPoint)
    (h : dp.chosen_score = none ∨ dp.rejected_score = none) :
    flip_if_needed dp = dp := by
  rcases h with h | h
  · unfold flip_if_needed
    rw [h]
  · unfold flip_if_needed
    cases h2 : dp.chosen_score <;> rw [h]

theorem flip_if_needed_eq_some (dp : DataPoint) (cs rs : ℚ)
    (h1 : dp.chosen_score = some cs) (h2 : dp.rejected_score = some rs) :
    flip_if_needed dp = if cs < rs then flip_data_point dp else dp := by
  unfold flip_if_needed
  rw [h1, h2]

theorem flip_if_needed_scores (dp : DataPoint) (cs rs : ℚ)
    (hcs : (flip_if_needed dp).chosen_score = some cs)
    (hrs : (flip_if_needed dp).rejected_score = some rs) : rs ≤ cs := by
  cases h1 : dp.chosen_score with
  | none =>
    rw [flip_if_needed_none dp (Or.inl h1), h1] at hcs
    cases hcs
  | some cs0 =>
    cases h2 : dp.rejected_score with
    | none =>
      rw [flip_if_needed_none dp (Or.inr h2), h2] at hrs
      cases hrs
    | some rs0 =>
      rw [flip_if_needed_eq_some dp cs0 rs0 h1 h2] at hcs hrs
      by_cases hlt : cs0 < rs0
      · rw [if_pos hlt] at hcs hrs
        obtain ⟨hfc, hfr⟩ := flip_data_point_scores dp cs0 rs0 h1 h2 hlt
        rw [hfc] at hcs
        rw [hfr] at hrs
        cases hcs
        cases hrs
        exact hlt.le
      · rw [if_neg hlt] at hcs hrs
        rw [h1] at hcs
        rw [h2] at hrs
        cases hcs
        cases hrs
        exact not_lt.mp hlt

theorem flip_if_needed_idem (dp : DataPoint) :
    flip_if_needed (flip_if_needed dp) = flip_if_needed dp := by
  cases h1 : (flip_if_needed dp).chosen_score with
  | none => exact flip_if_needed_none _ (Or.inl h1)
  | some cs =>
    cases h2 : (flip_if_needed dp).rejected_score with
    | none => exact flip_if_needed_none _ (Or.inr h2)
    | some rs =>
      rw [flip_if_needed_eq_some _ cs rs h1 h2,
        if_neg (not_lt.mpr (flip_if_needed_scores dp cs rs h1 h2))]

/-- C5: the enforce pass is idempotent, and after one application every item
carrying both score keys satisfies `rejected_score <= chosen_score`. -/
theorem enforce_idempotent (data : List DataPoint) :
    flip_all (flip_all data) = flip_all data ∧
    ∀ dp ∈ flip_all data, ∀ cs rs : ℚ,
      dp.chosen_score = some cs → dp.rejected_score = some rs → rs ≤ cs := by
  constructor
  · unfold flip_all
    rw [List.map_map]
    exact List.map_congr_left fun dp _ => flip_if_needed_idem dp
  · intro dp hdp cs rs hcs hrs
    rw [flip_all, List.mem_map] at hdp
    obtain ⟨dp0, -, hdp0⟩ := hdp
    subst hdp0
    exact flip_if_needed_scores dp0 cs rs hcs hrs

theorem enforce_idempotent_witness :
    flip_all (flip_all [dpLT, dpGE, dpNS]) = flip_all [dpLT, dpGE, dpNS] ∧
    (1 : ℚ) ≤ 2 :=
  ⟨(enforce_idempotent [dpLT, dpGE, dpNS]).1,
   (enforce_idempotent [dpLT, dpGE, dpNS]).2 (flip_if_needed dpLT) (by decide)
     2 1 (by decide) (by decide)⟩

/-- C10: in noise-injection mode the per-item step exchanges exactly the
`chosen` and `rejected` fields when the flip decision is true and nothing
when it is false; `chosen_score`, `rejected_score`, `chosen_source`,
`rejected_source` and `conversations` are never changed, so after a flip
`chosen_score` still describes the text now stored under `rejected`. -/
theorem flip_step_frame (flip : Bool) (item : DataPoint) (c r : Message)
    (hc : item.chosen = some c) (hr : item.rejected = some r) :
    flip_step flip item =
      Except.ok (if flip then { item with chosen := some r, rejected := some c }
                 else item) ∧
    ∀ o : DataPoint, flip_step flip item = Except.ok o →
      o.chosen_score = item.chosen_score ∧ o.rejected_score = item.rejected_score ∧
      o.chosen_source = item.chosen_source ∧ o.rejected_source = item.rejected_source ∧
      o.conversations = item.conversations := by
  have hmain : flip_step flip item =
      Except.ok (if flip then { item with chosen := some r, rejected := some c }
                 else item) := by
    cases flip
    · rfl
    · simp only [flip_step, if_pos trivial, if_true]
      unfold flip_item_fields
      rw [hc, hr]
      rfl
  refine ⟨hmain, fun o ho => ?_⟩
  rw [hmain] at ho
  cases ho
  cases flip <;> simp

theorem flip_step_frame_witness :
    flip_step true dpLT = Except.ok { dpLT with chosen := some msgY, rejected := some msgX } ∧
    flip_step false dpLT = Except.ok dpLT :=
  ⟨(flip_step_frame true dpLT msgX msgY rfl rfl).1,
   (flip_step_frame false dpLT msgX msgY rfl rfl).1⟩

/-- C7 counterexample: a pair whose conversation has no human turn still
produces one SFT record (with empty instruction), and a pair without the
`chosen` key still produces one SFT record (with empty output) — neither
adapter skips such pairs. -/
theorem sft_no_skip :
    convert_to_sft [dpNoHuman] = [{ instruction := "", input := "", output := "out" }] ∧
    convert_dpo_to_sft [dpNoChosen] = [{ instruction := "q", input := "", output := "" }] := by
  constructor <;> decide

/-- C7 amended: `convert_to_sft` emits exactly one record per input pair,
with empty instruction when no human turn exists and empty output when
`chosen` is absent; `convert_dpo_to_sft` skips a pair exactly when its
`conversations` list is absent or empty, and otherwise emits a record even
without a human turn or a `chosen` key. -/
theorem sft_adapters_amended (data : List DataPoint) (item : DataPoint) :
    (convert_to_sft data).length = data.length ∧
    ((item.conversations.getD []).find? (fun conv => conv.from_ = some "human") = none →
      (convert_to_sft_item item).instruction = "") ∧
    (item.chosen = none → (convert_to_sft_item item).output = "") ∧
    (item.conversations.getD [] = [] → convert_dpo_to_sft_item item = none) ∧
    (item.conversations.getD [] ≠ [] → (convert_dpo_to_sft_item item).isSome = true) := by
  refine ⟨by simp [convert_to_sft], fun h => ?_, fun h => ?_, fun h => ?_, fun h => ?_⟩
  · unfold convert_to_sft_item
    cases hc : item.conversations with
    | none => rfl
    | some convs =>
      rw [hc, Option.getD_some] at h
      simp [h]
  · unfold convert_to_sft_item
    rw [h]
  · unfold convert_dpo_to_sft_item
    rw [h]
  · unfold convert_dpo_to_sft_item
    cases hl : item.conversations.getD [] with
    | nil => exact absurd hl h
    | cons conv0 tl => rfl

theorem sft_adapters_amended_witness :
    (convert_to_sft [dpNoHuman]).length = 1 ∧
    (convert_to_sft_item dpNoHuman).instruction = "" ∧
    (convert_to_sft_item dpNoChosen).output = "" ∧
    convert_dpo_to_sft_item dpNS = none ∧
    (convert_dpo_to_sft_item dpNoChosen).isSome = true :=
  ⟨(sft_adapters_amended [dpNoHuman] dpNoHuman).1,
   (sft_adapters_amended [dpNoHuman] dpNoHuman).2.1 (by decide),
   (sft_adapters_amended [] dpNoChosen).2.2.1 rfl,
   (sft_adapters_amended [] dpNS).2.2.2.1 (by decide),
   (sft_adapters_amended [] dpNoChosen).2.2.2.2 (by decide)⟩

theorem ratio_near (num : ℕ) (NQ r : ℚ) (hNQ : 0 < NQ)
    (h1 : r * NQ - 1 ≤ (num : ℚ)) (h2 : (num : ℚ) ≤ r * NQ + 1) :
    |(num : ℚ) / NQ - r| ≤ 1 / NQ := by
  have he : (num : ℚ) / NQ - r = ((num : ℚ) - r * NQ) / NQ := by
    rw [sub_div, mul_div_cancel_right₀ _ hNQ.ne']
  rw [abs_le, he]
  constructor
  · rw [show -(1 / NQ) = (-1) / NQ by ring]
    rw [div_le_div_iff_of_pos_right hNQ]
    linarith
  · rw [div_le_div_iff_of_pos_right hNQ]
    linarith

theorem requiredCounts_le (a b : ℕ) (r : ℚ) :
    (requiredCounts a b r).1 ≤ a ∧ (requiredCounts a b r).2 ≤ b :=
  ⟨Nat.min_le_right _ _, Nat.min_le_right _ _⟩

theorem requiredCounts_eq_low (a b : ℕ) (r : ℚ)
    (h : ⌊r * b / (1 - r)⌋₊ ≤ a) :
    requiredCounts a b r = (⌊r * b / (1 - r)⌋₊, b) := by
  simp only [requiredCounts, if_neg (not_lt.mpr h)]
  simp [Nat.min_eq_left h]

theorem requiredCounts_eq_high (a b : ℕ) (r : ℚ)
    (h : a < ⌊r * b / (1 - r)⌋₊) :
    requiredCounts a b r = (a, min ⌊(a : ℚ) * (1 - r) / r⌋₊ b) := by
  simp only [requiredCounts, if_pos h]
  simp

theorem requiredCounts_spec (a b : ℕ) (r : ℚ) (ha : 0 < a) (hb : 0 < b)
    (hr0 : 0 < r) (hr1 : r < 1) :
    0 < (requiredCounts a b r).1 + (requiredCounts a b r).2 ∧
    |((requiredCounts a b r).1 : ℚ) /
        (((requiredCounts a b r).1 + (requiredCounts a b r).2 : ℕ) : ℚ) - r|
      ≤ 1 / (((requiredCounts a b r).1 + (requiredCounts a b r).2 : ℕ) : ℚ) := by
  have h1r : (0 : ℚ) < 1 - r := by linarith
  have hx0 : (0 : ℚ) ≤ r * b / (1 - r) := by positivity
  have hxr : r * b / (1 - r) * (1 - r) = r * b := div_mul_cancel₀ _ h1r.ne'
  by_cases hcase : a < ⌊r * b / (1 - r)⌋₊
  · -- the A class is the bottleneck: keep all of it
    rw [requiredCounts_eq_high a b r hcase]
    have hy0 : (0 : ℚ) ≤ (a : ℚ) * (1 - r) / r := by positivity
    have hyr : (a : ℚ) * (1 - r) / r * r = (a : ℚ) * (1 - r) :=
      div_mul_cancel₀ _ hr0.ne'
    by_cases hGb : ⌊(a : ℚ) * (1 - r) / r⌋₊ ≤ b
    · rw [min_eq_left hGb]
      have hGy : (⌊(a : ℚ) * (1 - r) / r⌋₊ : ℚ) ≤ (a : ℚ) * (1 - r) / r :=
        Nat.floor_le hy0
      have hyG : (a : ℚ) * (1 - r) / r < ⌊(a : ℚ) * (1 - r) / r⌋₊ + 1 :=
        Nat.lt_floor_add_one _
      have hGr : (⌊(a : ℚ) * (1 - r) / r⌋₊ : ℚ) * r ≤ (a : ℚ) * (1 - r) := by
        calc (⌊(a : ℚ) * (1 - r) / r⌋₊ : ℚ) * r
            ≤ (a : ℚ) * (1 - r) / r * r := by
              exact mul_le_mul_of_nonneg_right hGy hr0.le
          _ = (a : ℚ) * (1 - r) := hyr
      have hrG : (a : ℚ) * (1 - r) < ((⌊(a : ℚ) * (1 - r) / r⌋₊ : ℚ) + 1) * r := by
        calc (a : ℚ) * (1 - r) = (a : ℚ) * (1 - r) / r * r := hyr.symm
          _ < ((⌊(a : ℚ) * (1 - r) / r⌋₊ : ℚ) + 1) * r := by
              exact mul_lt_mul_of_pos_right hyG hr0
      refine ⟨by omega, ?_⟩
      have hcast : (((a, ⌊(a : ℚ) * (1 - r) / r⌋₊).1 +
          (a, ⌊(a : ℚ) * (1 - r) / r⌋₊).2 : ℕ) : ℚ)
          = (a : ℚ) + (⌊(a : ℚ) * (1 - r) / r⌋₊ : ℚ) := by
        push_cast
        rfl
      rw [hcast]
      have hNQ : (0 : ℚ) < (a : ℚ) + (⌊(a : ℚ) * (1 - r) / r⌋₊ : ℚ) := by
        have : (0 : ℚ) < (a : ℚ) := by exact_mod_cast ha
        positivity
      refine ratio_near a _ r hNQ (by nlinarith) (by nlinarith)
    · -- impossible: both classes would have to exceed their sizes
      exfalso
      have hax : ((a : ℕ) + 1 : ℚ) ≤ r * b / (1 - r) := by
        have h1 : a + 1 ≤ ⌊r * b / (1 - r)⌋₊ := hcase
        exact_mod_cast (Nat.le_floor_iff hx0).mp h1
      have hby : ((b : ℕ) + 1 : ℚ) ≤ (a : ℚ) * (1 - r) / r := by
        have h2 : b + 1 ≤ ⌊(a : ℚ) * (1 - r) / r⌋₊ := by omega
        exact_mod_cast (Nat.le_floor_iff hy0).mp h2
      have hax' : ((a : ℚ) + 1) * (1 - r) ≤ r * b := (le_div_iff₀ h1r).mp (by linarith)
      have hby' : ((b : ℚ) + 1) * r ≤ (a : ℚ) * (1 - r) := (le_div_iff₀ hr0).mp (by linarith)
      nlinarith
  · -- all of the B class is kept
    have hle : ⌊r * b / (1 - r)⌋₊ ≤ a := not_lt.mp hcase
    rw [requiredCounts_eq_low a b r hle]
    have hLx : (⌊r * b / (1 - r)⌋₊ : ℚ) ≤ r * b / (1 - r) := Nat.floor_le hx0
    have hxL : r * b / (1 - r) < ⌊r * b / (1 - r)⌋₊ + 1 := Nat.lt_floor_add_one _
    have hLr : (⌊r * b / (1 - r)⌋₊ : ℚ) * (1 - r) ≤ r * b := by
      calc (⌊r * b / (1 - r)⌋₊ : ℚ) * (1 - r)
          ≤ r * b / (1 - r) * (1 - r) := by
            exact mul_le_mul_of_nonneg_right hLx h1r.le
        _ = r * b := hxr
    have hrL : r * b < ((⌊r * b / (1 - r)⌋₊ : ℚ) + 1) * (1 - r) := by
      calc r * b = r * b / (1 - r) * (1 - r) := hxr.symm
        _ < ((⌊r * b / (1 - r)⌋₊ : ℚ) + 1) * (1 - r) := by
            exact mul_lt_mul_of_pos_right hxL h1r
    refine ⟨by omega, ?_⟩
    have hcast : (((⌊r * b / (1 - r)⌋₊, b).1 + (⌊r * b / (1 - r)⌋₊, b).2 : ℕ) : ℚ)
        = (⌊r * b / (1 - r)⌋₊ : ℚ) + (b : ℚ) := by
      push_cast
      rfl
    rw [hcast]
    have hNQ : (0 : ℚ) < (⌊r * b / (1 - r)⌋₊ : ℚ) + (b : ℚ) := by
      have : (0 : ℚ) < (b : ℚ) := by exact_mod_cast hb
      positivity
    refine ratio_near _ _ r hNQ (by nlinarith) (by nlinarith)

theorem downsample_main_branch (sh1 sh2 sh3 : List DataPoint → List DataPoint)
    (data : List DataPoint) (r : ℚ) (h0 : (less_than data).length ≠ 0)
    (hr1 : ¬ 1 ≤ r) (hr0 : ¬ r ≤ 0) :
    downsample_dataset sh1 sh2 sh3 data r =
      sh3 (((sh1 (less_than data)).take
              (requiredCounts (less_than data).length (greater_equal data).length r).1) ++
           ((sh2 (greater_equal data)).take
              (requiredCounts (less_than data).length (greater_equal data).length r).2)) := by
  rw [downsample_dataset, if_neg h0, if_neg hr1, if_neg hr0]

/-- C3: for a target ratio strictly between 0 and 1 and non-empty classes of
sizes a and b, the computed sample counts are clamped to at most a and at
most b, the output has exactly their sum as length (hence at most a + b
items) and is non-empty, and the achieved fraction of predicate-true items
differs from the target ratio by at most 1 / len(output). -/
theorem downsample_ratio_bound (sh1 sh2 sh3 : List DataPoint → List DataPoint)
    (hsh1 : ∀ l, (sh1 l).Perm l) (hsh2 : ∀ l, (sh2 l).Perm l)
    (hsh3 : ∀ l, (sh3 l).Perm l)
    (data : List DataPoint) (r : ℚ) (hr0 : 0 < r) (hr1 : r < 1)
    (ha : 0 < (less_than data).length) (hb : 0 < (greater_equal data).length) :
    (requiredCounts (less_than data).length (greater_equal data).length r).1
        ≤ (less_than data).length ∧
    (requiredCounts (less_than data).length (greater_equal data).length r).2
        ≤ (greater_equal data).length ∧
    (downsample_dataset sh1 sh2 sh3 data r).length
        = (requiredCounts (less_than data).length (greater_equal data).length r).1
          + (requiredCounts (less_than data).length (greater_equal data).length r).2 ∧
    (downsample_dataset sh1 sh2 sh3 data r).length
        ≤ (less_than data).length + (greater_equal data).length ∧
    0 < (downsample_dataset sh1 sh2 sh3 data r).length ∧
    |(((downsample_dataset sh1 sh2 sh3 data r).filter scoreLess).length : ℚ) /
        ((downsample_dataset sh1 sh2 sh3 data r).length : ℚ) - r|
      ≤ 1 / ((downsample_dataset sh1 sh2 sh3 data r).length : ℚ) := by
  obtain ⟨hle1, hle2⟩ :=
    requiredCounts_le (less_than data).length (greater_equal data).length r
  obtain ⟨hpos, hbound⟩ :=
    requiredCounts_spec (less_than data).length (greater_equal data).length r ha hb hr0 hr1
  have hmain := downsample_main_branch sh1 sh2 sh3 data r ha.ne'
    (not_le.mpr hr1) (not_le.mpr hr0)
  have hlen1 : ((sh1 (less_than data)).take
      (requiredCounts (less_than data).length (greater_equal data).length r).1).length
      = (requiredCounts (less_than data).length (greater_equal data).length r).1 := by
    rw [List.length_take, (hsh1 (less_than data)).length_eq]
    exact min_eq_left hle1
  have hlen2 : ((sh2 (greater_equal data)).take
      (requiredCounts (less_than data).length (greater_equal data).length r).2).length
      = (requiredCounts (less_than data).length (greater_equal data).length r).2 := by
    rw [List.length_take, (hsh2 (greater_equal data)).length_eq]
    exact min_eq_left hle2
  have hout : (downsample_dataset sh1 sh2 sh3 data r).length
      = (requiredCounts (less_than data).length (greater_equal data).length r).1
        + (requiredCounts (less_than data).length (greater_equal data).length r).2 := by
    rw [hmain, (hsh3 _).length_eq, List.length_append, hlen1, hlen2]
  have hfilter1 : (((sh1 (less_than data)).take
      (requiredCounts (less_than data).length (greater_equal data).length r).1).filter
        scoreLess).length
      = (requiredCounts (less_than data).length (greater_equal data).length r).1 := by
    rw [List.filter_eq_self.mpr, hlen1]
    intro z hz
    have hz1 : z ∈ less_than data :=
      (hsh1 (less_than data)).subset (List.take_subset _ _ hz)
    exact (List.mem_filter.mp hz1).2
  have hfilter2 : (((sh2 (greater_equal data)).take
      (requiredCounts (less_than data).length (greater_equal data).length r).2).filter
        scoreLess).length = 0 := by
    rw [List.length_eq_zero, List.filter_eq_nil_iff]
    intro z hz
    have hz1 : z ∈ greater_equal data :=
      (hsh2 (greater_equal data)).subset (List.take_subset _ _ hz)
    have hz2 := (List.mem_filter.mp hz1).2
    simp only [Bool.not_eq_true'] at hz2
    simp [hz2]
  have hcount : ((downsample_dataset sh1 sh2 sh3 data r).filter scoreLess).length
      = (requiredCounts (less_than data).length (greater_equal data).length r).1 := by
    rw [hmain, ((hsh3 _).filter scoreLess).length_eq, List.filter_append,
      List.length_append, hfilter1, hfilter2]
    omega
  refine ⟨hle1, hle2, hout, ?_, ?_, ?_⟩
  · rw [hout]
    omega
  · rw [hout]
    exact hpos
  · rw [hcount, hout]
    exact_mod_cast hbound

theorem downsample_ratio_bound_witness :
    (requiredCounts (less_than [dpLT, dpGE]).length (greater_equal [dpLT, dpGE]).length
        (1 / 2)).1 ≤ (less_than [dpLT, dpGE]).length ∧
    (requiredCounts (less_than [dpLT, dpGE]).length (greater_equal [dpLT, dpGE]).length
        (1 / 2)).2 ≤ (greater_equal [dpLT, dpGE]).length ∧
    (downsample_dataset id id id [dpLT, dpGE] (1 / 2)).length
        = (requiredCounts (less_than [dpLT, dpGE]).length
            (greater_equal [dpLT, dpGE]).length (1 / 2)).1
          + (requiredCounts (less_than [dpLT, dpGE]).length
              (greater_equal [dpLT, dpGE]).length (1 / 2)).2 ∧
    (downsample_dataset id id id [dpLT, dpGE] (1 / 2)).length
        ≤ (less_than [dpLT, dpGE]).length + (greater_equal [dpLT, dpGE]).length ∧
    0 < (downsample_dataset id id id [dpLT, dpGE] (1 / 2)).length ∧
    |(((downsample_dataset id id id [dpLT, dpGE] (1 / 2)).filter scoreLess).length : ℚ) /
        ((downsample_dataset id id id [dpLT, dpGE] (1 / 2)).length : ℚ) - 1 / 2|
      ≤ 1 / ((downsample_dataset id id id [dpLT, dpGE] (1 / 2)).length : ℚ) :=
  downsample_ratio_bound id id id (fun l => List.Perm.refl l) (fun l => List.Perm.refl l)
    (fun l => List.Perm.refl l) [dpLT, dpGE] (1 / 2) one_half_pos one_half_lt_one
    (by decide) (by decide)
